import Mathlib

/-!
Verification of the `intelligent_web_agent.py` pipeline: a shallow embedding of
its pure control logic (JSON salvage parsing, page-fetch retry/fallback, table
extraction for charts, report element layout, and the orchestrator), with the
external library calls (the model, `json.loads`, `float`, `urljoin`, HTTP,
image download) abstracted as function parameters.
-/

set_option autoImplicit false

namespace WebAgent

/-- Result of one HTTP request: a decoded 2xx body, or any request-level
failure (connection error or bad status raised by `raise_for_status`). -/
inductive ReqResult where
  | ok (body : String)
  | err
deriving DecidableEq

/-- JSON values, as produced by `json.loads`. Numbers are modelled as integers
(no claim depends on float arithmetic). -/
inductive JVal where
  | null
  | num (n : Int)
  | str (s : String)
  | list (xs : List JVal)
  | obj (fields : List (String × JVal))

/-- Outcome of running a piece of Python code: a value, or a raised exception
propagating to the caller. -/
inductive PyResult (α : Type) where
  | ok (a : α)
  | raised

/-- Whether the left string starts with the right one (character-wise). -/
def str_starts (pre s : List Char) : Bool :=
  match pre, s with
  | [], _ => true
  | _ :: _, [] => false
  | c :: cs, d :: ds => if c = d then str_starts cs ds else false

/-- Python's substring test `needle in hay` on character lists. -/
def str_in_aux (needle : List Char) : List Char → Bool
  | [] => needle.isEmpty
  | d :: ds => str_starts needle (d :: ds) || str_in_aux needle ds

/-- Python's `needle in hay` for strings. -/
def str_contains (needle hay : String) : Bool :=
  str_in_aux needle.data hay.data

/-- Python's `str.find(c)` for a single character: index of the first
occurrence, `none` when absent (Python returns -1). -/
def find_first_aux (c : Char) : List Char → Option Nat
  | [] => none
  | d :: ds => if d = c then some 0 else (find_first_aux c ds).map (· + 1)

/-- Python's `str.rfind(c)` for a single character: index of the last
occurrence, `none` when absent (Python returns -1). -/
def find_last_aux (c : Char) : List Char → Option Nat
  | [] => none
  | d :: ds =>
    match find_last_aux c ds with
    | some k => some (k + 1)
    | none => if d = c then some 0 else none

/-- The slice `text[text.find('\x7b') : text.rfind('\x7d') + 1]` taken by the
salvage parser. Callers only reach it when both braces occur in the text, so
the fallback arm (both finds failing) is never exercised. -/
def brace_slice (text : String) : String :=
  match find_first_aux '{' text.data, find_last_aux '}' text.data with
  | some i, some j => String.mk ((text.data.drop i).take (j + 1 - i))
  | _, _ => text

/-- The failure object `{"error": "Could not parse response", "raw_response": text}`
returned when the model response lacks a brace. -/
def err_obj_resp (text : String) : JVal :=
  JVal.obj [("error", JVal.str "Could not parse response"), ("raw_response", JVal.str text)]

/-- The failure object `{"error": "Could not parse JSON from response", "raw_response": text}`
returned by `extract_information` when the brace-slice re-parse also fails. -/
def err_obj_json (text : String) : JVal :=
  JVal.obj [("error", JVal.str "Could not parse JSON from response"), ("raw_response", JVal.str text)]

/-- The response-parsing logic of `interpret_task` (lines 46-54): direct
`json.loads`; on failure, if the text has both braces, `json.loads` of the
brace slice WITHOUT a surrounding try (so a second failure raises
`json.JSONDecodeError`); only a brace-free text returns the failure object.
The parameter `parse` stands for `json.loads` (`none` = raises JSONDecodeError). -/
def interpret_task_parse (parse : String → Option JVal) (text : String) : PyResult JVal :=
  match parse text with
  | some j => PyResult.ok j
  | none =>
    if str_contains "\x7b" text && str_contains "\x7d" text then
      match parse (brace_slice text) with
      | some j => PyResult.ok j
      | none => PyResult.raised
    else PyResult.ok (err_obj_resp text)

/-- The response-parsing logic of `extract_information` (lines 131-142): direct
`json.loads`; on failure, if the text has both braces, `json.loads` of the
brace slice inside a try, returning a failure object on a second failure;
a brace-free text returns the other failure object. Never raises. -/
def extract_information_parse (parse : String → Option JVal) (text : String) : JVal :=
  match parse text with
  | some j => j
  | none =>
    if str_contains "\x7b" text && str_contains "\x7d" text then
      match parse (brace_slice text) with
      | some j => j
      | none => err_obj_json text
    else err_obj_resp text

/-- The static table of `get_alternative_url` (lines 89-92), keyed by domain
substring. -/
def alternatives : List (String × String) :=
  [("www.fs.usda.gov", "en.wikipedia.org/wiki/Yana_Caves")]

/-- `get_alternative_url` (lines 86-97): the first table entry whose key is a
substring of the URL yields `"https://" + alt`; otherwise `None`. -/
def get_alternative_url (url : String) : Option String :=
  (alternatives.find? (fun p => str_contains p.1 url)).map (fun p => "https://" ++ p.2)

/-- Retry loop of `fetch_webpage` (lines 62-84). `net i` is the outcome of the
i-th HTTP request of this call; `idx` counts requests made so far; the second
recursion argument is the number of loop iterations remaining. Returns the
Python return value (`none` models falling off the function, i.e. `None`)
together with the list of URLs requested, in order. -/
def fetch_aux (net : Nat → ReqResult) (url : String) (idx : Nat) : Nat → Option String × List String
  | 0 => (none, [])
  | rem + 1 =>
    match net idx with
    | ReqResult.ok body => (some body, [url])
    | ReqResult.err =>
      if rem = 0 then
        match get_alternative_url url with
        | some alt =>
          match net (idx + 1) with
          | ReqResult.ok body => (some body, [url, alt])
          | ReqResult.err => (some "", [url, alt])
        | none => (some "", [url])
      else
        match fetch_aux net url (idx + 1) rem with
        | (r, us) => (r, url :: us)

/-- `fetch_webpage` (lines 56-84): up to `max_retries` attempts against `url`,
then on the last failure at most one extra attempt against the alternative URL,
else the empty string. The second component records every URL requested. -/
def fetch_webpage (net : Nat → ReqResult) (url : String) (max_retries : Nat) :
    Option String × List String :=
  fetch_aux net url 0 max_retries

/-- An HTML document as seen by `extract_visual_elements`: the `src` attributes
of its `img` tags in document order (absent attributes appear as the default
`""`), and its tables, each a list of rows, each row the stripped texts of its
`td`/`th` cells in order. -/
structure HtmlDoc where
  imgSrcs : List String
  tables : List (List (List String))

/-- Chart data built from a table: parallel label and value columns. -/
structure ChartData where
  labels : List String
  values : List Int
deriving DecidableEq

/-- Output of `extract_visual_elements`. -/
structure VisualElements where
  images : List String
  charts : List ChartData

/-- Python's `s.replace(',', '')` applied to a cell before numeric parsing. -/
def strip_commas (s : String) : String :=
  String.mk (s.data.filter (fun c => decide (c ≠ ',')))

/-- Image collection loop of `extract_visual_elements` (lines 248-253): skip
empty `src`, resolve relative URLs through `urljoin` (abstracted as `uj`),
keep document order and duplicates. -/
def resolve_imgs (uj : String → String → String) (base : String) : List String → List String
  | [] => []
  | src :: rest =>
    if src = "" then resolve_imgs uj base rest
    else
      (if str_starts "http://".data src.data || str_starts "https://".data src.data
       then src else uj base src) :: resolve_imgs uj base rest

/-- Row loop of `extract_visual_elements` (lines 260-269): a row with at least
two cells whose second cell parses numerically (after comma stripping, via the
abstracted `float` parser `pn`) appends its label and value; any other row is
skipped. -/
def process_table_rows (pn : String → Option Int) : List (List String) → ChartData
  | [] => { labels := [], values := [] }
  | row :: rest =>
    match row with
    | c0 :: c1 :: _ =>
      match pn (strip_commas c1) with
      | some v =>
        match process_table_rows pn rest with
        | d => { labels := c0 :: d.labels, values := v :: d.values }
      | none => process_table_rows pn rest
    | _ => process_table_rows pn rest

/-- Table loop of `extract_visual_elements` (lines 256-272): a table
contributes its chart data only when both collected columns are non-empty. -/
def collect_charts (pn : String → Option Int) : List (List (List String)) → List ChartData
  | [] => []
  | t :: ts =>
    match process_table_rows pn t with
    | d => if !d.labels.isEmpty && !d.values.isEmpty then d :: collect_charts pn ts
           else collect_charts pn ts

/-- `extract_visual_elements` (lines 239-274). -/
def extract_visual_elements (pn : String → Option Int) (uj : String → String → String)
    (doc : HtmlDoc) (base : String) : VisualElements :=
  { images := resolve_imgs uj base doc.imgSrcs
  , charts := collect_charts pn doc.tables }

/-- One flowable appended to the report's `elements` list. `title` is the
CustomTitle paragraph, `heading` a CustomHeading paragraph, `text` a Normal
paragraph; `timestamp` is the nondeterministic timestamp paragraph; `crash`
marks a spot where the Python code would raise (never produced on the paths
the pipeline exercises). -/
inductive Elem where
  | title (s : String)
  | timestamp
  | spacer
  | image (url : String)
  | chart (kind : String) (labels : List String) (values : List Int)
  | heading (s : String)
  | text (s : String)
  | crash

/-- Python's `str()` on a JSON value, as used inside f-strings. The composite
reprs are abbreviated stand-ins; no claim depends on them. -/
def pyStr : JVal → String
  | JVal.null => "None"
  | JVal.num n => toString n
  | JVal.str s => s
  | JVal.list _ => "[list]"
  | JVal.obj _ => "\x7bdict\x7d"

/-- Whether a value is a Python number, i.e. `isinstance(item, (int, float))`. -/
def jval_is_num : JVal → Bool
  | JVal.num _ => true
  | _ => false

/-- `create_chart` (lines 200-237). The bar branch evaluates
`max(data['values'])`, which raises `ValueError` on an empty list (`none`
here); the pie and line branches build the chart unconditionally; an unknown
chart type leaves `chart` unbound and `drawing.add(chart)` raises. -/
def create_chart (data : ChartData) (chart_type : String) : Option Elem :=
  if chart_type = "bar" then
    match data.values.max? with
    | some _ => some (Elem.chart "bar" data.labels data.values)
    | none => none
  else if chart_type = "pie" then some (Elem.chart "pie" data.labels data.values)
  else if chart_type = "line" then some (Elem.chart "line" data.labels data.values)
  else none

/-- Image loop of `save_results_to_file` (lines 315-319): for each of the first
3 discovered URLs, append the image and a spacer when `download_image`
succeeds (`dl` abstracts its success), skip silently when it returns `None`. -/
def render_images (dl : String → Bool) : List String → List Elem
  | [] => []
  | u :: rest =>
    (if dl u then [Elem.image u, Elem.spacer] else []) ++ render_images dl rest

/-- One iteration of the chart loop of `save_results_to_file` (lines 322-328):
pie when the record has at most 5 labels, bar otherwise, followed by a spacer. -/
def render_one_table_chart (d : ChartData) : List Elem :=
  match create_chart d (if d.labels.length ≤ 5 then "pie" else "bar") with
  | some e => [e, Elem.spacer]
  | none => [Elem.crash]

/-- Chart loop of `save_results_to_file` (lines 322-328). -/
def render_table_charts : List ChartData → List Elem
  | [] => []
  | d :: rest => render_one_table_chart d ++ render_table_charts rest

/-- Labels `[str(i) for i in range(len(value))]` for a numeric list field. -/
def index_labels (n : Nat) : List String :=
  (List.range n).map (fun i => toString i)

/-- The numeric contents of a list value (under the all-numeric guard this is
exactly the list itself). -/
def nums_of (xs : List JVal) : List Int :=
  xs.filterMap (fun x => match x with | JVal.num n => some n | _ => none)

/-- Item enumeration of a list field (lines 351-357): `enumerate(value, 1)`,
dict items as a numbered line plus indented `key: value` lines, scalars as one
indented numbered line. -/
def render_items (i : Nat) : List JVal → List Elem
  | [] => []
  | x :: rest =>
    (match x with
     | JVal.obj fs =>
       Elem.text (toString i ++ ".") ::
         fs.map (fun p => Elem.text ("    " ++ p.1 ++ ": " ++ pyStr p.2))
     | _ => [Elem.text ("  " ++ toString i ++ ". " ++ pyStr x)])
    ++ render_items (i + 1) rest

/-- Rendering of one `result` field (lines 338-360): a list value gets a
heading, then a line chart when the list is non-empty and all-numeric, then
its enumerated items and a spacer; any other value becomes one `key: value`
paragraph. -/
def render_result_field (k : String) (v : JVal) : List Elem :=
  match v with
  | JVal.list xs =>
    [Elem.heading (k ++ ":")]
    ++ (if !xs.isEmpty && xs.all jval_is_num then
          match create_chart { labels := index_labels xs.length, values := nums_of xs } "line" with
          | some e => [e, Elem.spacer]
          | none => [Elem.crash]
        else [])
    ++ render_items 1 xs
    ++ [Elem.spacer]
  | _ => [Elem.text (k ++ ": " ++ pyStr v)]

/-- Field loop of `save_results_to_file` (line 338). -/
def render_fields : List (String × JVal) → List Elem
  | [] => []
  | (k, v) :: rest => render_result_field k v ++ render_fields rest

/-- First value bound to a key in a result object (keys are unique in a
Python dict; lookups under a membership guard never miss). -/
def field_get (fs : List (String × JVal)) (k : String) : JVal :=
  match fs with
  | [] => JVal.null
  | (k2, v) :: rest => if k2 = k then v else field_get rest k

/-- Extracted-information block of `save_results_to_file` (lines 331-360):
an `error` key yields the error paragraph plus the optional raw response,
instead of the labelled sections. -/
def render_info (result : List (String × JVal)) : List Elem :=
  if result.any (fun p => p.1 == "error") then
    [Elem.heading ("Error: " ++ pyStr (field_get result "error"))]
    ++ (if result.any (fun p => p.1 == "raw_response") then
          [Elem.heading "Raw Response:", Elem.text (pyStr (field_get result "raw_response"))]
        else [])
  else
    Elem.heading "Extracted Information:" :: render_fields result

/-- Element list built by `save_results_to_file` (lines 276-363) for a
dict-shaped result: title, timestamp, spacer, then (only when HTML content and
a base URL are supplied) images and table charts, then the information block. -/
def save_results_elements (dl : String → Bool) (uj : String → String → String)
    (pn : String → Option Int) (result : List (String × JVal)) (task : String)
    (doc : Option (HtmlDoc × String)) : List Elem :=
  [Elem.title ("Task: " ++ task), Elem.timestamp, Elem.spacer]
  ++ (match doc with
      | none => []
      | some (d, base) =>
        match extract_visual_elements pn uj d base with
        | ve => render_images dl (ve.images.take 3) ++ render_table_charts ve.charts)
  ++ render_info result

/-- Python's `key in value` as used at line 150 (`"error" in task_info`):
key membership for a dict, element equality for a list, substring test for a
string; a number is not a container and the test raises `TypeError`. -/
def py_in (k : String) : JVal → PyResult Bool
  | JVal.obj fs => PyResult.ok (fs.any (fun p => p.1 == k))
  | JVal.list xs =>
    PyResult.ok (xs.any (fun x => match x with | JVal.str s => s == k | _ => false))
  | JVal.str s => PyResult.ok (str_contains k s)
  | _ => PyResult.raised

/-- Python's `value[key]` subscription: `none` models the `KeyError` (missing
key) or `TypeError` (non-dict value) it raises. -/
def get_key (j : JVal) (k : String) : Option JVal :=
  match j with
  | JVal.obj fs =>
    if fs.any (fun p => p.1 == k) then some (field_get fs k) else none
  | _ => none

/-- Python's `', '.join(extraction_targets)` (line 115): joins a list of
strings, the characters of a string, or the keys of a dict; `none` models the
`TypeError` raised on a number, `None`, or a list with non-string items. -/
def join_targets : JVal → Option String
  | JVal.list xs =>
    if xs.all (fun x => match x with | JVal.str _ => true | _ => false)
    then some (String.intercalate ", "
      (xs.filterMap (fun x => match x with | JVal.str s => some s | _ => none)))
    else none
  | JVal.str s => some (String.intercalate ", " (s.data.map (fun c => String.mk [c])))
  | JVal.obj fs => some (String.intercalate ", " (fs.map (fun p => p.1)))
  | _ => none

/-- The early-exit payload of `execute_web_task` when the fetched content is
empty (lines 157-161). -/
def fetch_fail_obj : JVal :=
  JVal.obj [("error", JVal.str "Failed to fetch webpage content"),
            ("overview", JVal.list [JVal.str "Unable to retrieve information. Please try again later."])]

/-- Whether `save_results_to_file` completes on this result: its
`result.items()` / `result['error']` accesses succeed exactly for dicts. -/
def save_ok : JVal → Bool
  | JVal.obj _ => true
  | _ => false

/-- `execute_web_task` (lines 144-174). `p1`/`p2` stand for `json.loads` on
the two model responses `iresp`/`eresp`; `net` is the network oracle for the
page fetch (default `max_retries=3`). Returns the result value and the number
of report files written inside the function (0 on the early exits, 1 after
extraction), or `raised` when an exception escapes. -/
def execute_web_task (p1 p2 : String → Option JVal) (iresp eresp : String)
    (net : Nat → ReqResult) : PyResult (JVal × Nat) :=
  match interpret_task_parse p1 iresp with
  | PyResult.raised => PyResult.raised
  | PyResult.ok t =>
    match py_in "error" t with
    | PyResult.raised => PyResult.raised
    | PyResult.ok true => PyResult.ok (t, 0)
    | PyResult.ok false =>
      match get_key t "website_url" with
      | some (JVal.str url) =>
        match (fetch_webpage net url 3).1 with
        | none => PyResult.ok (fetch_fail_obj, 0)
        | some body =>
          if body = "" then PyResult.ok (fetch_fail_obj, 0)
          else
            match get_key t "extraction_targets" with
            | some tv =>
              match join_targets tv with
              | some _ =>
                match extract_information_parse p2 eresp with
                | result => if save_ok result then PyResult.ok (result, 1) else PyResult.raised
              | none => PyResult.raised
            | none => PyResult.raised
      | some _ => PyResult.raised
      | none => PyResult.raised

/-- The `__main__` block (lines 368-384): run `execute_web_task`, then write
one more report from the returned result. The count is the total number of
report files written in the whole run. -/
def main_run (p1 p2 : String → Option JVal) (iresp eresp : String)
    (net : Nat → ReqResult) : PyResult (JVal × Nat) :=
  match execute_web_task p1 p2 iresp eresp net with
  | PyResult.raised => PyResult.raised
  | PyResult.ok (r, n) => if save_ok r then PyResult.ok (r, n + 1) else PyResult.raised

/-- Text truncation of `extract_information` (lines 107-109): a page text
longer than 10000 characters is cut to its first 10000 characters plus "...". -/
def truncate_page_text (s : String) : String :=
  if s.length > 10000 then String.mk (s.data.take 10000) ++ "..." else s

/-- The fixed prompt text preceding the page content (lines 113-117). -/
def prompt_head (task : String) (targets : List String) : String :=
  "\nTask: " ++ task ++ "\nExtraction targets: " ++ String.intercalate ", " targets
  ++ "\nWebpage content:\n"

/-- The fixed prompt text following the page content (lines 119-128). -/
def prompt_tail : String :=
  "\n\nExtract the requested information from the webpage content above. "
  ++ "Provide your response as a valid JSON object with the following structure:\n"
  ++ "\x7b\n    \"overview\": [],\n    \"key_details\": [],\n    \"recent_updates\": [],\n"
  ++ "    \"related_information\": [],\n    \"additional_facts\": []\n\x7d\n"
  ++ "Include only the fields that are relevant and available in the content. "
  ++ "Format as valid JSON only.\n"

/-- The extraction prompt built by `extract_information` (lines 113-128) from
the already-extracted page text. -/
def extraction_prompt (task : String) (targets : List String) (page_text : String) : String :=
  prompt_head task targets ++ truncate_page_text page_text ++ prompt_tail

/-- Minimal concrete stand-in for `json.loads`, used to instantiate witnesses
and counterexamples: accepts exactly the empty object. It agrees with
`json.loads` on every input the concrete scenarios feed it. -/
def jparse0 (s : String) : Option JVal :=
  if s = "\x7b\x7d" then some (JVal.obj []) else none

/-- A well-formed task interpretation, as the model is prompted to produce. -/
def task_obj (url : String) (targets : List String) : JVal :=
  JVal.obj [("website_url", JVal.str url),
            ("extraction_targets", JVal.list (targets.map JVal.str))]

/-- Concrete stand-in for `json.loads` for pipeline scenarios: the text "T"
parses to a well-formed task interpretation, everything else fails. -/
def jparse1 (s : String) : Option JVal :=
  if s = "T" then some (task_obj "https://example.com" ["overview"]) else none

/-- Concrete stand-in for Python's `float` on table cells: accepts non-empty
all-digit strings (after the caller's comma stripping). -/
def digits_val : List Char → Nat → Nat
  | [], acc => acc
  | c :: cs, acc => digits_val cs (acc * 10 + (c.toNat - 48))

/-- Concrete numeric cell parser for witnesses. -/
def parse_num_stub (s : String) : Option Int :=
  if !s.data.isEmpty && s.data.all Char.isDigit
  then some (Int.ofNat (digits_val s.data 0)) else none

/-- Network oracle on which every request fails. -/
def net_all_err : Nat → ReqResult := fun _ => ReqResult.err

/-- Network oracle on which every request yields a fixed page. -/
def net_all_ok : Nat → ReqResult := fun _ => ReqResult.ok "<html>page</html>"

/-- Per-row reformulation of the row body (lines 262-269), used to state the
row filter: the label/value pair a row contributes, `none` when skipped. -/
def row_entry (pn : String → Option Int) (row : List String) : Option (String × Int) :=
  match row with
  | c0 :: c1 :: _ => (pn (strip_commas c1)).map (fun v => (c0, v))
  | _ => none

/-- The image URLs embedded in a list of report elements, in order. -/
def image_urls : List Elem → List String
  | [] => []
  | Elem.image u :: es => u :: image_urls es
  | _ :: es => image_urls es

/-- The number of chart elements in a list of report elements. -/
def count_charts : List Elem → Nat
  | [] => 0
  | Elem.chart _ _ _ :: es => count_charts es + 1
  | _ :: es => count_charts es

/-- The number of crash markers in a list of report elements. -/
def count_crash : List Elem → Nat
  | [] => 0
  | Elem.crash :: es => count_crash es + 1
  | _ :: es => count_crash es

theorem find_first_aux_eq_none {c : Char} {l : List Char} (h : find_first_aux c l = none) :
    ∀ k, l.get? k ≠ some c := by
  induction l with
  | nil => intro k; simp
  | cons d ds ih =>
    unfold find_first_aux at h
    by_cases hd : d = c
    · rw [if_pos hd] at h; cases h
    · rw [if_neg hd, Option.map_eq_none'] at h
      intro k
      cases k with
      | zero => simp only [List.get?, ne_eq, Option.some.injEq]; exact hd
      | succ k => simpa using ih h k

theorem find_first_aux_eq_some {c : Char} {l : List Char} {i : Nat}
    (h : find_first_aux c l = some i) :
    l.get? i = some c ∧ ∀ k, k < i → l.get? k ≠ some c := by
  induction l generalizing i with
  | nil => simp [find_first_aux] at h
  | cons d ds ih =>
    unfold find_first_aux at h
    by_cases hd : d = c
    · rw [if_pos hd] at h
      injection h with h
      subst h
      exact ⟨by simp [List.get?, hd], fun k hk => absurd hk (by omega)⟩
    · rw [if_neg hd, Option.map_eq_some'] at h
      obtain ⟨i₀, hi₀, hi⟩ := h
      subst hi
      obtain ⟨h1, h2⟩ := ih hi₀
      refine ⟨by simpa using h1, ?_⟩
      intro k hk
      cases k with
      | zero => simp only [List.get?, ne_eq, Option.some.injEq]; exact hd
      | succ k => simpa using h2 k (by omega)

theorem find_last_aux_eq_none {c : Char} {l : List Char} (h : find_last_aux c l = none) :
    ∀ k, l.get? k ≠ some c := by
  induction l with
  | nil => intro k; simp
  | cons d ds ih =>
    unfold find_last_aux at h
    cases hds : find_last_aux c ds with
    | some j => rw [hds] at h; cases h
    | none =>
      simp only [hds] at h
      by_cases hd : d = c
      · rw [if_pos hd] at h; cases h
      · intro k
        cases k with
        | zero => simp only [List.get?, ne_eq, Option.some.injEq]; exact hd
        | succ k => simpa using ih hds k

theorem find_last_aux_eq_some {c : Char} {l : List Char} {j : Nat}
    (h : find_last_aux c l = some j) :
    l.get? j = some c ∧ ∀ k, j < k → l.get? k ≠ some c := by
  induction l generalizing j with
  | nil => simp [find_last_aux] at h
  | cons d ds ih =>
    unfold find_last_aux at h
    cases hds : find_last_aux c ds with
    | some j₀ =>
      simp only [hds] at h
      injection h with h
      subst h
      obtain ⟨h1, h2⟩ := ih hds
      refine ⟨by simpa using h1, ?_⟩
      intro k hk
      cases k with
      | zero => exact absurd hk (by omega)
      | succ k => simpa using h2 k (by omega)
    | none =>
      simp only [hds] at h
      by_cases hd : d = c
      · rw [if_pos hd] at h
        injection h with h
        subst h
        refine ⟨by simp [List.get?, hd], ?_⟩
        intro k hk
        cases k with
        | zero => exact absurd hk (by omega)
        | succ k => simpa using find_last_aux_eq_none hds k
      · rw [if_neg hd] at h; cases h

theorem str_in_single_first (c : Char) (l : List Char) :
    str_in_aux [c] l = (find_first_aux c l).isSome := by
  induction l with
  | nil => rfl
  | cons d ds ih =>
    unfold str_in_aux find_first_aux
    by_cases hd : d = c
    · subst hd
      simp [str_starts]
    · have hcd : ¬ c = d := fun hx => hd hx.symm
      cases hf : find_first_aux c ds <;> simp [str_starts, hd, hcd, ih, hf]

theorem str_in_single_last (c : Char) (l : List Char) :
    str_in_aux [c] l = (find_last_aux c l).isSome := by
  induction l with
  | nil => rfl
  | cons d ds ih =>
    unfold str_in_aux find_last_aux
    cases hds : find_last_aux c ds with
    | some j =>
      have hmem : str_in_aux [c] ds = true := by rw [ih, hds]; rfl
      simp [hmem]
    | none =>
      have hmem : str_in_aux [c] ds = false := by rw [ih, hds]; rfl
      by_cases hd : d = c
      · subst hd; simp [str_starts]
      · have hcd : ¬ c = d := fun hx => hd hx.symm
        simp [str_starts, hd, hcd, hmem]

theorem extract_parse_fail_fail {parse : String → Option JVal} {text : String}
    (hfail : parse text = none)
    (hbr : (str_contains "\x7b" text && str_contains "\x7d" text) = true)
    (hs : parse (brace_slice text) = none) :
    extract_information_parse parse text = err_obj_json text := by
  unfold extract_information_parse
  rw [hfail, hbr]
  simp [hs]

theorem interpret_parse_fail_fail {parse : String → Option JVal} {text : String}
    (hfail : parse text = none)
    (hbr : (str_contains "\x7b" text && str_contains "\x7d" text) = true)
    (hs : parse (brace_slice text) = none) :
    interpret_task_parse parse text = PyResult.raised := by
  unfold interpret_task_parse
  rw [hfail, hbr]
  simp [hs]

/-- C1 (amended): when the direct JSON parse of a model response fails,
`extract_information` returns the structured failure object
`\x7berror, raw_response\x7d` carrying the original text both when the brace-slice
re-parse also fails and when the text lacks a brace, and never raises; but
`interpret_task` returns the failure object only when the text lacks a brace —
when both braces are present and the brace-slice re-parse fails, the
`json.loads` exception propagates out of `interpret_task`. -/
theorem salvage_double_failure_behavior (parse : String → Option JVal) (text : String)
    (hfail : parse text = none) :
    ((str_contains "\x7b" text && str_contains "\x7d" text) = true →
      parse (brace_slice text) = none →
      extract_information_parse parse text = err_obj_json text ∧
      interpret_task_parse parse text = PyResult.raised) ∧
    ((str_contains "\x7b" text && str_contains "\x7d" text) = false →
      extract_information_parse parse text = err_obj_resp text ∧
      interpret_task_parse parse text = PyResult.ok (err_obj_resp text)) := by
  constructor
  · intro hbr hs
    exact ⟨extract_parse_fail_fail hfail hbr hs, interpret_parse_fail_fail hfail hbr hs⟩
  · intro hbr
    constructor
    · simp [extract_information_parse, hfail, hbr]
    · simp [interpret_task_parse, hfail, hbr]

/-- C1 counterexample: on the response text "\x7bx\x7d" the direct parse fails,
both braces are present, the brace-slice re-parse fails too, and
`interpret_task` raises instead of returning the failure object — refuting the
claim that both functions return a structured failure object and never raise. -/
theorem interpret_salvage_raises_cex :
    interpret_task_parse jparse0 "\x7bx\x7d" = PyResult.raised := rfl

/-- C1 witness: the amended theorem applied at the concrete parser `jparse0`,
once at a braced text whose slice fails to parse and once at a brace-free text. -/
theorem salvage_double_failure_behavior_witness :
    (extract_information_parse jparse0 "\x7bx\x7d" = err_obj_json "\x7bx\x7d" ∧
      interpret_task_parse jparse0 "\x7bx\x7d" = PyResult.raised) ∧
    (extract_information_parse jparse0 "no braces" = err_obj_resp "no braces" ∧
      interpret_task_parse jparse0 "no braces" = PyResult.ok (err_obj_resp "no braces")) :=
  ⟨(salvage_double_failure_behavior jparse0 "\x7bx\x7d" rfl).1 rfl rfl,
   (salvage_double_failure_behavior jparse0 "no braces" rfl).2 rfl⟩

/-- C4: when the direct parse fails and the text contains both braces, both
salvage instantiations parse exactly the substring from the index of the first
brace to the index of the last closing brace inclusive, and return that
parse's result when it succeeds. -/
theorem salvage_exact_slice (parse : String → Option JVal) (text : String) (j : JVal)
    (hfail : parse text = none)
    (h1 : str_contains "\x7b" text = true) (h2 : str_contains "\x7d" text = true)
    (hs : parse (brace_slice text) = some j) :
    interpret_task_parse parse text = PyResult.ok j ∧
    extract_information_parse parse text = j ∧
    (∃ a b, find_first_aux '{' text.data = some a ∧
      find_last_aux '}' text.data = some b ∧
      text.data.get? a = some '{' ∧
      (∀ k, k < a → text.data.get? k ≠ some '{') ∧
      text.data.get? b = some '}' ∧
      (∀ k, b < k → text.data.get? k ≠ some '}') ∧
      brace_slice text = String.mk ((text.data.drop a).take (b + 1 - a))) := by
  have hbr : (str_contains "\x7b" text && str_contains "\x7d" text) = true := by
    rw [h1, h2]; rfl
  have hf1 : (find_first_aux '{' text.data).isSome = true := by
    rw [← str_in_single_first]; exact h1
  have hf2 : (find_last_aux '}' text.data).isSome = true := by
    rw [← str_in_single_last]; exact h2
  refine ⟨?_, ?_, ?_⟩
  · simp [interpret_task_parse, hfail, hbr, hs]
  · simp [extract_information_parse, hfail, hbr, hs]
  · cases ha : find_first_aux '{' text.data with
    | none => rw [ha] at hf1; cases hf1
    | some a =>
      cases hb : find_last_aux '}' text.data with
      | none => rw [hb] at hf2; cases hf2
      | some b =>
        obtain ⟨ha1, ha2⟩ := find_first_aux_eq_some ha
        obtain ⟨hb1, hb2⟩ := find_last_aux_eq_some hb
        refine ⟨a, b, rfl, rfl, ha1, ha2, hb1, hb2, ?_⟩
        unfold brace_slice
        rw [ha, hb]

/-- C4 witness: the claim theorem applied at the concrete parser `jparse0` and
the text "ab\x7b\x7dcd", whose brace slice "\x7b\x7d" parses to the empty object. -/
theorem salvage_exact_slice_witness :
    interpret_task_parse jparse0 "ab\x7b\x7dcd" = PyResult.ok (JVal.obj []) ∧
    extract_information_parse jparse0 "ab\x7b\x7dcd" = JVal.obj [] ∧
    (∃ a b, find_first_aux '{' "ab\x7b\x7dcd".data = some a ∧
      find_last_aux '}' "ab\x7b\x7dcd".data = some b ∧
      "ab\x7b\x7dcd".data.get? a = some '{' ∧
      (∀ k, k < a → "ab\x7b\x7dcd".data.get? k ≠ some '{') ∧
      "ab\x7b\x7dcd".data.get? b = some '}' ∧
      (∀ k, b < k → "ab\x7b\x7dcd".data.get? k ≠ some '}') ∧
      brace_slice "ab\x7b\x7dcd" = String.mk (("ab\x7b\x7dcd".data.drop a).take (b + 1 - a))) :=
  salvage_exact_slice jparse0 "ab\x7b\x7dcd" (JVal.obj []) rfl rfl rfl rfl

theorem fetch_aux_pos_isSome (net : Nat → ReqResult) (url : String) :
    ∀ rem idx, ((fetch_aux net url idx (rem + 1)).1).isSome = true := by
  intro rem
  induction rem with
  | zero =>
    intro idx
    unfold fetch_aux
    cases h : net idx with
    | ok body => rfl
    | err =>
      rw [if_pos rfl]
      cases h2 : get_alternative_url url with
      | some alt =>
        cases h3 : net (idx + 1) with
        | ok body => rfl
        | err => rfl
      | none => rfl
  | succ r ih =>
    intro idx
    unfold fetch_aux
    cases h : net idx with
    | ok body => rfl
    | err =>
      rw [if_neg (by omega : ¬ (r + 1 = 0))]
      exact ih (idx + 1)

theorem fetch_aux_ok_at {net : Nat → ReqResult} {url body : String} :
    ∀ k idx rem, k < rem → (∀ i, i < k → net (idx + i) = ReqResult.err) →
      net (idx + k) = ReqResult.ok body →
      fetch_aux net url idx rem = (some body, List.replicate (k + 1) url) := by
  intro k
  induction k with
  | zero =>
    intro idx rem hk hprev hok
    cases rem with
    | zero => omega
    | succ r =>
      unfold fetch_aux
      rw [show net idx = ReqResult.ok body from by simpa using hok]
      rfl
  | succ k ih =>
    intro idx rem hk hprev hok
    cases rem with
    | zero => omega
    | succ r =>
      have h0 : net idx = ReqResult.err := by simpa using hprev 0 (by omega)
      unfold fetch_aux
      rw [h0, if_neg (by omega : ¬ (r = 0))]
      have hrec := ih (idx + 1) r (by omega)
        (fun i hi => by
          have hx := hprev (i + 1) (by omega)
          rwa [show idx + (i + 1) = idx + 1 + i from by omega] at hx)
        (by rwa [show idx + 1 + k = idx + (k + 1) from by omega])
      rw [hrec]
      simp [List.replicate_succ]

theorem fetch_aux_all_err_no_alt {net : Nat → ReqResult} {url : String}
    (halt : get_alternative_url url = none) :
    ∀ rem idx, (∀ i, i ≤ rem → net (idx + i) = ReqResult.err) →
      fetch_aux net url idx (rem + 1) = (some "", List.replicate (rem + 1) url) := by
  intro rem
  induction rem with
  | zero =>
    intro idx h
    have h0 : net idx = ReqResult.err := by simpa using h 0 (by omega)
    unfold fetch_aux
    rw [h0, if_pos rfl, halt]
    rfl
  | succ r ih =>
    intro idx h
    have h0 : net idx = ReqResult.err := by simpa using h 0 (by omega)
    unfold fetch_aux
    rw [h0, if_neg (by omega : ¬ (r + 1 = 0))]
    have hrec := ih (idx + 1) (fun i hi => by
      have hx := h (i + 1) (by omega)
      rwa [show idx + (i + 1) = idx + 1 + i from by omega] at hx)
    rw [hrec]
    simp [List.replicate_succ]

theorem fetch_aux_all_err_alt {net : Nat → ReqResult} {url alt : String}
    (halt : get_alternative_url url = some alt) :
    ∀ rem idx, (∀ i, i ≤ rem → net (idx + i) = ReqResult.err) →
      fetch_aux net url idx (rem + 1) =
        ((match net (idx + rem + 1) with
          | ReqResult.ok body => some body
          | ReqResult.err => some ""), List.replicate (rem + 1) url ++ [alt]) := by
  intro rem
  induction rem with
  | zero =>
    intro idx h
    have h0 : net idx = ReqResult.err := by simpa using h 0 (by omega)
    unfold fetch_aux
    rw [h0, if_pos rfl, halt]
    simp only [Nat.add_zero]
    cases h3 : net (idx + 1) with
    | ok body => simp [List.replicate]
    | err => simp [List.replicate]
  | succ r ih =>
    intro idx h
    have h0 : net idx = ReqResult.err := by simpa using h 0 (by omega)
    unfold fetch_aux
    rw [h0, if_neg (by omega : ¬ (r + 1 = 0))]
    have hrec := ih (idx + 1) (fun i hi => by
      have hx := h (i + 1) (by omega)
      rwa [show idx + (i + 1) = idx + 1 + i from by omega] at hx)
    rw [hrec, show idx + 1 + r + 1 = idx + (r + 1) + 1 from by omega]
    simp [List.replicate_succ]

/-- C3: with the default retry count (3), `fetch_webpage` returns exactly the
decoded body of the first successful request; when all 3 attempts fail it
performs exactly one additional fetch against the alternative URL if and only
if a table key is a substring of the URL (returning the extra fetch's body on
success and "" on failure), and returns "" without an extra fetch when no key
matches. The second component lists every requested URL in order. -/
theorem fetch_retry_fallback (net : Nat → ReqResult) (url : String) :
    (∀ k body, k < 3 → (∀ i, i < k → net i = ReqResult.err) →
      net k = ReqResult.ok body →
      fetch_webpage net url 3 = (some body, List.replicate (k + 1) url)) ∧
    ((∀ i, i < 3 → net i = ReqResult.err) →
      (get_alternative_url url = none →
        fetch_webpage net url 3 = (some "", [url, url, url])) ∧
      (∀ alt, get_alternative_url url = some alt →
        (net 3 = ReqResult.err →
          fetch_webpage net url 3 = (some "", [url, url, url, alt])) ∧
        (∀ body, net 3 = ReqResult.ok body →
          fetch_webpage net url 3 = (some body, [url, url, url, alt])))) ∧
    ((get_alternative_url url).isSome = alternatives.any (fun p => str_contains p.1 url)) := by
  refine ⟨?_, ?_, ?_⟩
  · intro k body hk hprev hok
    exact fetch_aux_ok_at k 0 3 hk (fun i hi => by simpa using hprev i hi)
      (by simpa using hok)
  · intro hall
    have h3 : ∀ i, i ≤ 2 → net (0 + i) = ReqResult.err := fun i hi => by
      simpa using hall i (by omega)
    refine ⟨?_, ?_⟩
    · intro halt
      have h := fetch_aux_all_err_no_alt halt 2 0 h3
      show fetch_aux net url 0 (2 + 1) = _
      rw [h]
      rfl
    · intro alt halt
      have h := fetch_aux_all_err_alt halt 2 0 h3
      constructor
      · intro h3e
        show fetch_aux net url 0 (2 + 1) = _
        rw [h, show (0 + 2 + 1 : Nat) = 3 from rfl, h3e]
        rfl
      · intro body h3b
        show fetch_aux net url 0 (2 + 1) = _
        rw [h, show (0 + 2 + 1 : Nat) = 3 from rfl, h3b]
        rfl
  · unfold get_alternative_url alternatives
    cases h : str_contains "www.fs.usda.gov" url <;> simp [List.find?, h]

/-- C3 witness: the claim theorem applied to a network that succeeds at once,
to one that always fails on an unmapped domain, and to one that always fails
on the mapped domain `www.fs.usda.gov` (where the fourth request targets the
hardcoded Wikipedia alternative). -/
theorem fetch_retry_fallback_witness :
    fetch_webpage net_all_ok "https://example.com" 3 =
      (some "<html>page</html>", ["https://example.com"]) ∧
    fetch_webpage net_all_err "https://example.com" 3 =
      (some "", ["https://example.com", "https://example.com", "https://example.com"]) ∧
    fetch_webpage net_all_err "https://www.fs.usda.gov/a" 3 =
      (some "", ["https://www.fs.usda.gov/a", "https://www.fs.usda.gov/a",
                 "https://www.fs.usda.gov/a", "https://en.wikipedia.org/wiki/Yana_Caves"]) := by
  refine ⟨?_, ?_, ?_⟩
  · exact (fetch_retry_fallback net_all_ok "https://example.com").1 0 "<html>page</html>"
      (by omega) (fun i hi => absurd hi (by omega)) rfl
  · exact ((fetch_retry_fallback net_all_err "https://example.com").2.1
      (fun i _ => rfl)).1 rfl
  · exact (((fetch_retry_fallback net_all_err "https://www.fs.usda.gov/a").2.1
      (fun i _ => rfl)).2 "https://en.wikipedia.org/wiki/Yana_Caves" rfl).1 rfl

/-- C8: calling `fetch_webpage` with `max_retries = 0` performs no HTTP
request and returns Python `None` rather than a string (the `for` loop body
never runs and the function falls through), while any positive retry count
always returns a string; so the empty-string-on-failure contract holds only
for positive retry counts. -/
theorem fetch_zero_retries (net : Nat → ReqResult) (url : String) :
    fetch_webpage net url 0 = (none, []) ∧
    ∀ n, ((fetch_webpage net url (n + 1)).1).isSome = true :=
  ⟨rfl, fun n => fetch_aux_pos_isSome net url n 0⟩

theorem process_table_rows_eq (pn : String → Option Int) :
    ∀ rows, process_table_rows pn rows =
      { labels := (rows.filterMap (row_entry pn)).map Prod.fst,
        values := (rows.filterMap (row_entry pn)).map Prod.snd } := by
  intro rows
  induction rows with
  | nil => rfl
  | cons row rest ih =>
    cases row with
    | nil => simpa [process_table_rows, row_entry, List.filterMap_cons] using ih
    | cons c0 cs =>
      cases cs with
      | nil => simpa [process_table_rows, row_entry, List.filterMap_cons] using ih
      | cons c1 cs2 =>
        cases hpn : pn (strip_commas c1) with
        | some v => simp [process_table_rows, row_entry, List.filterMap_cons, hpn, ih]
        | none => simp [process_table_rows, row_entry, List.filterMap_cons, hpn, ih]

theorem process_table_rows_len (pn : String → Option Int) (rows : List (List String)) :
    (process_table_rows pn rows).labels.length = (process_table_rows pn rows).values.length := by
  rw [process_table_rows_eq]
  simp

theorem collect_charts_eq (pn : String → Option Int) :
    ∀ ts, collect_charts pn ts = ts.filterMap (fun t =>
      if (t.filterMap (row_entry pn)).isEmpty then none
      else some (process_table_rows pn t)) := by
  intro ts
  induction ts with
  | nil => rfl
  | cons t ts ih =>
    have hp := process_table_rows_eq pn t
    simp only [collect_charts, List.filterMap_cons]
    rw [hp]
    cases hfm : t.filterMap (row_entry pn) with
    | nil => simpa using ih
    | cons e es => simpa using ih

theorem mem_collect_charts {pn : String → Option Int} {d : ChartData} :
    ∀ ts, d ∈ collect_charts pn ts →
      ∃ t ∈ ts, process_table_rows pn t = d ∧ d.labels ≠ [] ∧ d.values ≠ [] := by
  intro ts
  induction ts with
  | nil => intro h; simp [collect_charts] at h
  | cons t ts ih =>
    intro h
    unfold collect_charts at h
    by_cases hg : (!(process_table_rows pn t).labels.isEmpty &&
        !(process_table_rows pn t).values.isEmpty) = true
    · rw [if_pos hg] at h
      rcases List.mem_cons.mp h with h1 | h2
      · have hl : (process_table_rows pn t).labels.isEmpty = false := by
          rcases Bool.and_eq_true_iff.mp hg with ⟨ha, _⟩
          simpa using ha
        have hv : (process_table_rows pn t).values.isEmpty = false := by
          rcases Bool.and_eq_true_iff.mp hg with ⟨_, hb⟩
          simpa using hb
        subst h1
        refine ⟨t, List.mem_cons_self t ts, rfl, ?_, ?_⟩
        · intro he; rw [he] at hl; simp at hl
        · intro he; rw [he] at hv; simp at hv
      · obtain ⟨t₀, ht₀, rest⟩ := ih h2
        exact ⟨t₀, List.mem_cons_of_mem t ht₀, rest⟩
    · rw [if_neg hg] at h
      obtain ⟨t₀, ht₀, rest⟩ := ih h
      exact ⟨t₀, List.mem_cons_of_mem t ht₀, rest⟩

/-- C5: for every table, a row contributes its (label, value) pair exactly when
it has at least two cells and its second cell parses numerically after comma
stripping (`row_entry`); all other rows are skipped; and a chart-data record is
emitted for a table if and only if at least one of its rows contributed. -/
theorem visual_extractor_rows (pn : String → Option Int) (uj : String → String → String) :
    (∀ rows, process_table_rows pn rows =
      { labels := (rows.filterMap (row_entry pn)).map Prod.fst,
        values := (rows.filterMap (row_entry pn)).map Prod.snd }) ∧
    (∀ doc base, (extract_visual_elements pn uj doc base).charts =
      doc.tables.filterMap (fun t =>
        if (t.filterMap (row_entry pn)).isEmpty then none
        else some (process_table_rows pn t))) ∧
    (∀ t : List (List String), (t.filterMap (row_entry pn)).isEmpty = false ↔
      ∃ row ∈ t, (row_entry pn row).isSome = true) := by
  refine ⟨process_table_rows_eq pn, ?_, ?_⟩
  · intro doc base
    exact collect_charts_eq pn doc.tables
  · intro t
    have h1 : ((t.filterMap (row_entry pn)).isEmpty = false) ↔
        ¬ t.filterMap (row_entry pn) = [] := by
      cases t.filterMap (row_entry pn) <;> simp
    rw [h1, List.filterMap_eq_nil_iff]
    push_neg
    constructor
    · rintro ⟨row, hrow, hne⟩
      refine ⟨row, hrow, ?_⟩
      cases hr : row_entry pn row with
      | none => exact absurd hr hne
      | some v => rfl
    · rintro ⟨row, hrow, hs⟩
      refine ⟨row, hrow, ?_⟩
      cases hr : row_entry pn row with
      | none => rw [hr] at hs; cases hs
      | some v => simp

/-- C9: every chart record produced by `extract_visual_elements` has labels and
values of equal positive length (they are only appended together), so
`create_chart` applies `max` to a non-empty value list and both the bar and pie
constructions succeed on records of this provenance. -/
theorem chart_record_invariant (pn : String → Option Int) (uj : String → String → String)
    (doc : HtmlDoc) (base : String) (d : ChartData)
    (hd : d ∈ (extract_visual_elements pn uj doc base).charts) :
    d.labels.length = d.values.length ∧ d.labels ≠ [] ∧ d.values ≠ [] ∧
    (d.values.max?).isSome = true ∧
    (∃ e, create_chart d "bar" = some e) ∧ (∃ e, create_chart d "pie" = some e) := by
  obtain ⟨t, ht, heq, hl, hv⟩ := mem_collect_charts doc.tables hd
  have hlen : d.labels.length = d.values.length := by
    rw [← heq]
    exact process_table_rows_len pn t
  have hmax : (d.values.max?).isSome = true := by
    cases hvv : d.values with
    | nil => exact absurd hvv hv
    | cons a as => simp [List.max?]
  refine ⟨hlen, hl, hv, hmax, ?_, ?_⟩
  · cases hm : d.values.max? with
    | none => rw [hm] at hmax; cases hmax
    | some m => exact ⟨Elem.chart "bar" d.labels d.values, by simp [create_chart, hm]⟩
  · exact ⟨Elem.chart "pie" d.labels d.values, by simp [create_chart]⟩

/-- C9 witness: the invariant applied to the record extracted from the
one-table document whose single row is ("a", "3"). -/
theorem chart_record_invariant_witness :
    (ChartData.mk ["a"] [3]).labels.length = (ChartData.mk ["a"] [3]).values.length ∧
    (ChartData.mk ["a"] [3]).labels ≠ [] ∧
    (ChartData.mk ["a"] [3]).values ≠ [] ∧
    ((ChartData.mk ["a"] [3]).values.max?).isSome = true ∧
    (∃ e, create_chart (ChartData.mk ["a"] [3]) "bar" = some e) ∧
    (∃ e, create_chart (ChartData.mk ["a"] [3]) "pie" = some e) :=
  chart_record_invariant parse_num_stub (fun _ s => s) (HtmlDoc.mk [] [[["a", "3"]]]) "b"
    (ChartData.mk ["a"] [3]) (by decide)

theorem image_urls_append : ∀ a b : List Elem, image_urls (a ++ b) = image_urls a ++ image_urls b := by
  intro a b
  induction a with
  | nil => rfl
  | cons e es ih => cases e <;> simp [image_urls, ih]

theorem count_charts_append : ∀ a b : List Elem,
    count_charts (a ++ b) = count_charts a + count_charts b := by
  intro a b
  induction a with
  | nil => simp [count_charts]
  | cons e es ih => cases e <;> simp [count_charts, ih, Nat.add_right_comm]

theorem count_crash_append : ∀ a b : List Elem,
    count_crash (a ++ b) = count_crash a + count_crash b := by
  intro a b
  induction a with
  | nil => simp [count_crash]
  | cons e es ih => cases e <;> simp [count_crash, ih, Nat.add_right_comm]

theorem render_images_counts (dl : String → Bool) : ∀ us,
    image_urls (render_images dl us) = us.filter dl ∧
    count_charts (render_images dl us) = 0 ∧
    count_crash (render_images dl us) = 0 := by
  intro us
  induction us with
  | nil => exact ⟨rfl, rfl, rfl⟩
  | cons u us ih =>
    obtain ⟨h1, h2, h3⟩ := ih
    unfold render_images
    by_cases h : dl u = true
    · rw [if_pos h]
      refine ⟨?_, ?_, ?_⟩ <;>
        simp [image_urls_append, count_charts_append, count_crash_append,
          image_urls, count_charts, count_crash, h1, h2, h3, List.filter_cons, h]
    · rw [if_neg h]
      have hf : dl u = false := by
        cases hdu : dl u
        · rfl
        · exact absurd hdu h
      refine ⟨?_, ?_, ?_⟩ <;> simp [h1, h2, h3, List.filter_cons, hf]

theorem create_chart_line (d : ChartData) :
    create_chart d "line" = some (Elem.chart "line" d.labels d.values) := rfl

theorem create_chart_pie (d : ChartData) :
    create_chart d "pie" = some (Elem.chart "pie" d.labels d.values) := rfl

theorem create_chart_bar {d : ChartData} (hv : d.values ≠ []) :
    create_chart d "bar" = some (Elem.chart "bar" d.labels d.values) := by
  obtain ⟨m, hm⟩ : ∃ m, d.values.max? = some m := by
    cases hvv : d.values with
    | nil => exact absurd hvv hv
    | cons a as => exact ⟨as.foldl max a, by simp [List.max?]⟩
  simp [create_chart, hm]

theorem render_one_table_chart_eq {d : ChartData} (hv : d.values ≠ []) :
    render_one_table_chart d =
      [Elem.chart (if d.labels.length ≤ 5 then "pie" else "bar") d.labels d.values,
       Elem.spacer] := by
  by_cases h : d.labels.length ≤ 5
  · rw [if_pos h]
    unfold render_one_table_chart
    rw [if_pos h, create_chart_pie]
  · rw [if_neg h]
    unfold render_one_table_chart
    rw [if_neg h, create_chart_bar hv]

theorem render_table_charts_counts : ∀ ds : List ChartData, (∀ d ∈ ds, d.values ≠ []) →
    count_charts (render_table_charts ds) = ds.length ∧
    count_crash (render_table_charts ds) = 0 ∧
    image_urls (render_table_charts ds) = [] := by
  intro ds
  induction ds with
  | nil => exact fun _ => ⟨rfl, rfl, rfl⟩
  | cons d ds ih =>
    intro h
    obtain ⟨h1, h2, h3⟩ := ih (fun x hx => h x (List.mem_cons_of_mem d hx))
    have hd : d.values ≠ [] := h d (List.mem_cons_self d ds)
    unfold render_table_charts
    rw [render_one_table_chart_eq hd]
    refine ⟨?_, ?_, ?_⟩
    · rw [count_charts_append, h1]
      simp [count_charts]
      omega
    · rw [count_crash_append, h2]
      rfl
    · rw [image_urls_append, h3]
      rfl

theorem text_map_counts {α : Type} (f : α → String) : ∀ l : List α,
    image_urls (l.map (fun a => Elem.text (f a))) = [] ∧
    count_charts (l.map (fun a => Elem.text (f a))) = 0 ∧
    count_crash (l.map (fun a => Elem.text (f a))) = 0 := by
  intro l
  induction l with
  | nil => exact ⟨rfl, rfl, rfl⟩
  | cons a l ih => simpa [image_urls, count_charts, count_crash] using ih

theorem render_items_counts : ∀ (xs : List JVal) (i : Nat),
    image_urls (render_items i xs) = [] ∧ count_charts (render_items i xs) = 0 ∧
    count_crash (render_items i xs) = 0 := by
  intro xs
  induction xs with
  | nil => intro i; exact ⟨rfl, rfl, rfl⟩
  | cons x xs ih =>
    intro i
    obtain ⟨h1, h2, h3⟩ := ih (i + 1)
    cases x with
    | obj fs =>
      obtain ⟨m1, m2, m3⟩ :=
        text_map_counts (fun p : String × JVal => "    " ++ p.1 ++ ": " ++ pyStr p.2) fs
      refine ⟨?_, ?_, ?_⟩ <;>
        simp [render_items, image_urls_append, count_charts_append, count_crash_append,
          image_urls, count_charts, count_crash, h1, h2, h3, m1, m2, m3]
    | null =>
      refine ⟨?_, ?_, ?_⟩ <;>
        simp [render_items, image_urls_append, count_charts_append, count_crash_append,
          image_urls, count_charts, count_crash, h1, h2, h3]
    | num n =>
      refine ⟨?_, ?_, ?_⟩ <;>
        simp [render_items, image_urls_append, count_charts_append, count_crash_append,
          image_urls, count_charts, count_crash, h1, h2, h3]
    | str s =>
      refine ⟨?_, ?_, ?_⟩ <;>
        simp [render_items, image_urls_append, count_charts_append, count_crash_append,
          image_urls, count_charts, count_crash, h1, h2, h3]
    | list ys =>
      refine ⟨?_, ?_, ?_⟩ <;>
        simp [render_items, image_urls_append, count_charts_append, count_crash_append,
          image_urls, count_charts, count_crash, h1, h2, h3]

theorem render_result_field_counts (k : String) (v : JVal) :
    image_urls (render_result_field k v) = [] ∧ count_crash (render_result_field k v) = 0 := by
  cases v with
  | list xs =>
    obtain ⟨h1, h2, h3⟩ := render_items_counts xs 1
    simp only [render_result_field]
    by_cases hc : (!xs.isEmpty && xs.all jval_is_num) = true
    · rw [if_pos hc]
      constructor <;>
        simp [image_urls_append, count_crash_append, image_urls, count_crash, h1, h3,
          create_chart_line]
    · rw [if_neg hc]
      constructor <;>
        simp [image_urls_append, count_crash_append, image_urls, count_crash, h1, h3]
  | null => exact ⟨rfl, rfl⟩
  | num n => exact ⟨rfl, rfl⟩
  | str s => exact ⟨rfl, rfl⟩
  | obj fs => exact ⟨rfl, rfl⟩

theorem render_fields_counts : ∀ fs : List (String × JVal),
    image_urls (render_fields fs) = [] ∧ count_crash (render_fields fs) = 0 := by
  intro fs
  induction fs with
  | nil => exact ⟨rfl, rfl⟩
  | cons p fs ih =>
    obtain ⟨h1, h2⟩ := render_result_field_counts p.1 p.2
    refine ⟨?_, ?_⟩ <;>
      simp [render_fields, image_urls_append, count_crash_append, h1, h2, ih.1, ih.2]

theorem render_info_counts (result : List (String × JVal)) :
    image_urls (render_info result) = [] ∧ count_crash (render_info result) = 0 := by
  unfold render_info
  by_cases he : result.any (fun p => p.1 == "error") = true
  · rw [if_pos he]
    by_cases hr : result.any (fun p => p.1 == "raw_response") = true
    · rw [if_pos hr]
      exact ⟨rfl, rfl⟩
    · rw [if_neg hr]
      exact ⟨rfl, rfl⟩
  · rw [if_neg he]
    obtain ⟨h1, h2⟩ := render_fields_counts result
    refine ⟨?_, ?_⟩ <;> simp [image_urls, count_crash, h1, h2]

/-- C6 (amended): a table-derived chart record renders as a pie chart when it
has at most 5 labels and as a bar chart otherwise; a NON-EMPTY list-valued
field of the extraction result whose elements are all numeric renders a line
chart regardless of its length; an empty list field renders no chart, because
the code guards on `len(value) > 0`. -/
theorem chart_kind_selection :
    (∀ d : ChartData, d.labels.length ≤ 5 →
      render_one_table_chart d = [Elem.chart "pie" d.labels d.values, Elem.spacer]) ∧
    (∀ d : ChartData, d.values ≠ [] → 5 < d.labels.length →
      render_one_table_chart d = [Elem.chart "bar" d.labels d.values, Elem.spacer]) ∧
    (∀ (k : String) (xs : List JVal), xs ≠ [] → xs.all jval_is_num = true →
      render_result_field k (JVal.list xs) =
        Elem.heading (k ++ ":") ::
          Elem.chart "line" (index_labels xs.length) (nums_of xs) ::
          Elem.spacer :: (render_items 1 xs ++ [Elem.spacer])) := by
  refine ⟨?_, ?_, ?_⟩
  · intro d h
    unfold render_one_table_chart
    rw [if_pos h, create_chart_pie]
  · intro d hv h
    unfold render_one_table_chart
    rw [if_neg (by omega : ¬ d.labels.length ≤ 5), create_chart_bar hv]
  · intro k xs hne hall
    have hcond : (!xs.isEmpty && xs.all jval_is_num) = true := by
      cases xs with
      | nil => exact absurd rfl hne
      | cons x xs => simp [hall]
    simp only [render_result_field]
    rw [if_pos hcond, create_chart_line]
    rfl

/-- C6 counterexample: the empty list is list-valued and all of its (zero)
elements are numeric, yet the report writer renders no chart for it — the
code's `len(value) > 0` guard refutes "regardless of the list's length". -/
theorem line_chart_empty_list_cex :
    List.all ([] : List JVal) jval_is_num = true ∧
    render_result_field "overview" (JVal.list []) = [Elem.heading "overview:", Elem.spacer] ∧
    count_charts (render_result_field "overview" (JVal.list [])) = 0 :=
  ⟨rfl, rfl, rfl⟩

/-- C6 witness: the amended theorem applied to a 2-label table record (pie), a
6-label table record (bar), and a non-empty all-numeric list field (line). -/
theorem chart_kind_selection_witness :
    render_one_table_chart (ChartData.mk ["a", "b"] [1, 2]) =
      [Elem.chart "pie" ["a", "b"] [1, 2], Elem.spacer] ∧
    render_one_table_chart (ChartData.mk ["a", "b", "c", "d", "e", "f"] [1, 2, 3, 4, 5, 6]) =
      [Elem.chart "bar" ["a", "b", "c", "d", "e", "f"] [1, 2, 3, 4, 5, 6], Elem.spacer] ∧
    render_result_field "overview" (JVal.list [JVal.num 4, JVal.num 5]) =
      Elem.heading "overview:" ::
        Elem.chart "line" (index_labels 2) (nums_of [JVal.num 4, JVal.num 5]) ::
        Elem.spacer :: (render_items 1 [JVal.num 4, JVal.num 5] ++ [Elem.spacer]) :=
  ⟨chart_kind_selection.1 (ChartData.mk ["a", "b"] [1, 2]) (by decide),
   chart_kind_selection.2.1 (ChartData.mk ["a", "b", "c", "d", "e", "f"] [1, 2, 3, 4, 5, 6])
     (by simp) (by decide),
   chart_kind_selection.2.2 "overview" [JVal.num 4, JVal.num 5] (by simp) rfl⟩

/-- C7: the report's element list is title, timestamp, spacer, then (only when
HTML content and a base URL are supplied) the images among the first 3
discovered URLs that download, one chart per discovered table record (and
nothing raises there), then the information block; an `error` key makes the
information block the error message plus any raw response instead of the
labelled sections. -/
theorem save_results_layout (dl : String → Bool) (uj : String → String → String)
    (pn : String → Option Int) (result : List (String × JVal)) (task : String)
    (d : HtmlDoc) (base : String) :
    save_results_elements dl uj pn result task (some (d, base)) =
      [Elem.title ("Task: " ++ task), Elem.timestamp, Elem.spacer]
      ++ render_images dl ((extract_visual_elements pn uj d base).images.take 3)
      ++ render_table_charts (extract_visual_elements pn uj d base).charts
      ++ render_info result ∧
    save_results_elements dl uj pn result task none =
      [Elem.title ("Task: " ++ task), Elem.timestamp, Elem.spacer] ++ render_info result ∧
    image_urls (save_results_elements dl uj pn result task (some (d, base))) =
      ((extract_visual_elements pn uj d base).images.take 3).filter dl ∧
    (image_urls (save_results_elements dl uj pn result task (some (d, base)))).length ≤ 3 ∧
    count_charts (render_table_charts (extract_visual_elements pn uj d base).charts) =
      (extract_visual_elements pn uj d base).charts.length ∧
    count_crash (save_results_elements dl uj pn result task (some (d, base))) = 0 ∧
    (result.any (fun p => p.1 == "error") = true →
      render_info result =
        [Elem.heading ("Error: " ++ pyStr (field_get result "error"))]
        ++ (if result.any (fun p => p.1 == "raw_response") then
              [Elem.heading "Raw Response:", Elem.text (pyStr (field_get result "raw_response"))]
            else [])) ∧
    (result.any (fun p => p.1 == "error") = false →
      render_info result = Elem.heading "Extracted Information:" :: render_fields result) := by
  have hvals : ∀ c ∈ (extract_visual_elements pn uj d base).charts, c.values ≠ [] := by
    intro c hc
    obtain ⟨_, _, _, _, hv⟩ := mem_collect_charts d.tables hc
    exact hv
  have hmain : save_results_elements dl uj pn result task (some (d, base)) =
      [Elem.title ("Task: " ++ task), Elem.timestamp, Elem.spacer]
      ++ render_images dl ((extract_visual_elements pn uj d base).images.take 3)
      ++ render_table_charts (extract_visual_elements pn uj d base).charts
      ++ render_info result := by
    simp [save_results_elements, List.append_assoc]
  obtain ⟨hi1, hi2, hi3⟩ :=
    render_images_counts dl ((extract_visual_elements pn uj d base).images.take 3)
  obtain ⟨hc1, hc2, hc3⟩ := render_table_charts_counts
    (extract_visual_elements pn uj d base).charts hvals
  obtain ⟨hn1, hn2⟩ := render_info_counts result
  have himg : image_urls (save_results_elements dl uj pn result task (some (d, base))) =
      ((extract_visual_elements pn uj d base).images.take 3).filter dl := by
    rw [hmain, image_urls_append, image_urls_append, image_urls_append, hi1, hc3, hn1]
    simp [image_urls]
  refine ⟨hmain, ?_, himg, ?_, hc1, ?_, ?_, ?_⟩
  · simp [save_results_elements]
  · rw [himg]
    calc (((extract_visual_elements pn uj d base).images.take 3).filter dl).length
        ≤ ((extract_visual_elements pn uj d base).images.take 3).length :=
          List.length_filter_le _ _
      _ ≤ 3 := by simp [List.length_take]
  · rw [hmain, count_crash_append, count_crash_append, count_crash_append, hi3, hc2, hn2]
    simp [count_crash]
  · intro he
    unfold render_info
    rw [if_pos he]
  · intro he
    unfold render_info
    rw [if_neg (by simp [he])]

/-- C7 witness: the layout theorem applied at a concrete error-shaped result
(rendering the error plus raw response), a concrete section-shaped result, and
a concrete document with images and one table. -/
theorem save_results_layout_witness :
    render_info [("error", JVal.str "boom"), ("raw_response", JVal.str "raw")] =
      [Elem.heading "Error: boom"] ++ [Elem.heading "Raw Response:", Elem.text "raw"] ∧
    render_info [("overview", JVal.list [JVal.str "x"])] =
      Elem.heading "Extracted Information:" ::
        render_fields [("overview", JVal.list [JVal.str "x"])] ∧
    count_crash (save_results_elements (fun _ => true) (fun b s => b ++ s) parse_num_stub
      [("overview", JVal.list [JVal.str "x"])] "t"
      (some (HtmlDoc.mk ["i1.png", "", "i2.png"] [[["a", "3"]]], "https://e.com/"))) = 0 :=
  ⟨(save_results_layout (fun _ => true) (fun b s => b ++ s) parse_num_stub
      [("error", JVal.str "boom"), ("raw_response", JVal.str "raw")] "t"
      (HtmlDoc.mk [] []) "u").2.2.2.2.2.2.1 rfl,
   (save_results_layout (fun _ => true) (fun b s => b ++ s) parse_num_stub
      [("overview", JVal.list [JVal.str "x"])] "t"
      (HtmlDoc.mk [] []) "u").2.2.2.2.2.2.2 rfl,
   (save_results_layout (fun _ => true) (fun b s => b ++ s) parse_num_stub
      [("overview", JVal.list [JVal.str "x"])] "t"
      (HtmlDoc.mk ["i1.png", "", "i2.png"] [[["a", "3"]]]) "https://e.com/").2.2.2.2.2.1⟩

theorem all_map_str (ts : List String) :
    (ts.map JVal.str).all
      (fun x => match x with | JVal.str _ => true | _ => false) = true := by
  induction ts with
  | nil => rfl
  | cons a ts ih => simp [ih]

/-- C2 (amended): a fetch failure after retries and fallback, an extraction
parse failure, and an interpretation parse failure on a brace-free response all
degrade to an error-flagged result returned to the caller together with at
least one report file written by the run; but an interpretation response that
contains braces and whose brace-slice re-parse also fails raises out of
`execute_web_task`, returning nothing and writing no report. -/
theorem pipeline_failure_degradation (p1 p2 : String → Option JVal)
    (iresp eresp : String) (net : Nat → ReqResult) :
    (p1 iresp = none →
      (str_contains "\x7b" iresp && str_contains "\x7d" iresp) = false →
      main_run p1 p2 iresp eresp net = PyResult.ok (err_obj_resp iresp, 1)) ∧
    (∀ url targets, p1 iresp = some (task_obj url targets) →
      (∀ i, i < 3 → net i = ReqResult.err) → get_alternative_url url = none →
      main_run p1 p2 iresp eresp net = PyResult.ok (fetch_fail_obj, 1)) ∧
    (∀ url targets body, p1 iresp = some (task_obj url targets) →
      net 0 = ReqResult.ok body → body ≠ "" →
      p2 eresp = none →
      (str_contains "\x7b" eresp && str_contains "\x7d" eresp) = true →
      p2 (brace_slice eresp) = none →
      main_run p1 p2 iresp eresp net = PyResult.ok (err_obj_json eresp, 2)) ∧
    (p1 iresp = none →
      (str_contains "\x7b" iresp && str_contains "\x7d" iresp) = true →
      p1 (brace_slice iresp) = none →
      main_run p1 p2 iresp eresp net = PyResult.raised) := by
  refine ⟨?_, ?_, ?_, ?_⟩
  · intro hp hbr
    have hint : interpret_task_parse p1 iresp = PyResult.ok (err_obj_resp iresp) := by
      simp [interpret_task_parse, hp, hbr]
    simp only [main_run, execute_web_task, hint]
    rfl
  · intro url targets hp hall halt
    have hint : interpret_task_parse p1 iresp = PyResult.ok (task_obj url targets) := by
      simp [interpret_task_parse, hp]
    have h1 : py_in "error" (task_obj url targets) = PyResult.ok false := rfl
    have h2 : get_key (task_obj url targets) "website_url" = some (JVal.str url) := rfl
    have hf : fetch_webpage net url 3 = (some "", List.replicate (2 + 1) url) :=
      fetch_aux_all_err_no_alt halt 2 0
        (fun i hi => show net (0 + i) = ReqResult.err from by
          rw [Nat.zero_add]
          exact hall i (by omega))
    simp only [main_run, execute_web_task, hint, h1, h2, hf]
    rfl
  · intro url targets body hp hnet hbody hp2 hbr2 hs2
    have hint : interpret_task_parse p1 iresp = PyResult.ok (task_obj url targets) := by
      simp [interpret_task_parse, hp]
    have h1 : py_in "error" (task_obj url targets) = PyResult.ok false := rfl
    have h2 : get_key (task_obj url targets) "website_url" = some (JVal.str url) := rfl
    have h3 : get_key (task_obj url targets) "extraction_targets" =
        some (JVal.list (targets.map JVal.str)) := rfl
    have hf : fetch_webpage net url 3 = (some body, List.replicate (0 + 1) url) :=
      fetch_aux_ok_at 0 0 3 (by omega) (fun i hi => absurd hi (by omega))
        (show net (0 + 0) = ReqResult.ok body from hnet)
    have hjoin : join_targets (JVal.list (targets.map JVal.str)) =
        some (String.intercalate ", " ((targets.map JVal.str).filterMap
          (fun x => match x with | JVal.str s => some s | _ => none))) := by
      simp [join_targets, all_map_str targets]
    have hext : extract_information_parse p2 eresp = err_obj_json eresp :=
      extract_parse_fail_fail hp2 hbr2 hs2
    simp only [main_run, execute_web_task, hint, h1, h2, h3, hf, hjoin, hext]
    simp [hbody, err_obj_json, save_ok]
  · intro hp hbr hsl
    have hint : interpret_task_parse p1 iresp = PyResult.raised :=
      interpret_parse_fail_fail hp hbr hsl
    simp only [main_run, execute_web_task, hint]

/-- C2 counterexample: on an interpretation response "\x7bx\x7d" whose direct
parse and brace-slice re-parse both fail, the run raises out of the pipeline —
no partial or error-flagged result is returned and no report is produced —
refuting "no runtime failure raises out of the pipeline". -/
theorem pipeline_raises_cex :
    main_run jparse0 jparse0 "\x7bx\x7d" "" net_all_err = PyResult.raised := rfl

/-- C2 witness: the amended theorem applied to a brace-free interpretation
failure, a run whose every page request fails on an unmapped domain, and a run
whose extraction response fails both parses. -/
theorem pipeline_failure_degradation_witness :
    main_run jparse0 jparse0 "no braces" "x" net_all_err =
      PyResult.ok (err_obj_resp "no braces", 1) ∧
    main_run jparse1 jparse0 "T" "x" net_all_err = PyResult.ok (fetch_fail_obj, 1) ∧
    main_run jparse1 jparse0 "T" "\x7bx\x7d" net_all_ok =
      PyResult.ok (err_obj_json "\x7bx\x7d", 2) :=
  ⟨(pipeline_failure_degradation jparse0 jparse0 "no braces" "x" net_all_err).1 rfl rfl,
   (pipeline_failure_degradation jparse1 jparse0 "T" "x" net_all_err).2.1
     "https://example.com" ["overview"] rfl (fun i _ => rfl) rfl,
   (pipeline_failure_degradation jparse1 jparse0 "T" "\x7bx\x7d" net_all_ok).2.2.1
     "https://example.com" ["overview"] "<html>page</html>" rfl rfl (by decide) rfl rfl rfl⟩

/-- C10: when the extracted page text exceeds 10000 characters, the prompt sent
to the model embeds exactly its first 10000 characters followed by "...", and
the prompt does not depend on any page content beyond the first 10000
characters. -/
theorem prompt_truncation (task : String) (targets : List String) (s t : String)
    (hs : s.length > 10000) :
    extraction_prompt task targets s =
      prompt_head task targets ++ (String.mk (s.data.take 10000) ++ "...") ++ prompt_tail ∧
    (t.length > 10000 → s.data.take 10000 = t.data.take 10000 →
      extraction_prompt task targets s = extraction_prompt task targets t) := by
  have htr : truncate_page_text s = String.mk (s.data.take 10000) ++ "..." := by
    unfold truncate_page_text
    rw [if_pos hs]
  constructor
  · unfold extraction_prompt
    rw [htr]
  · intro ht heq
    have htr2 : truncate_page_text t = String.mk (t.data.take 10000) ++ "..." := by
      unfold truncate_page_text
      rw [if_pos ht]
    unfold extraction_prompt
    rw [htr, htr2, heq]

theorem take_replicate_le {α : Type} (a : α) : ∀ n m : Nat, n ≤ m →
    (List.replicate m a).take n = List.replicate n a := by
  intro n
  induction n with
  | zero => intro m h; simp
  | succ k ih =>
    intro m h
    cases m with
    | zero => omega
    | succ m2 => simp [List.replicate_succ, ih m2 (by omega)]

/-- C10 witness: the truncation theorem applied to two concrete page texts of
10001 and 10002 characters agreeing on their first 10000 characters. -/
theorem prompt_truncation_witness :
    extraction_prompt "t" ["overview"] (String.mk (List.replicate 10001 'a')) =
      prompt_head "t" ["overview"]
      ++ (String.mk ((String.mk (List.replicate 10001 'a')).data.take 10000) ++ "...")
      ++ prompt_tail ∧
    extraction_prompt "t" ["overview"] (String.mk (List.replicate 10001 'a')) =
      extraction_prompt "t" ["overview"] (String.mk (List.replicate 10002 'a')) := by
  have h1 : (String.mk (List.replicate 10001 'a')).length > 10000 := by
    show 10000 < (List.replicate 10001 'a').length
    rw [List.length_replicate]
    norm_num
  have h2 : (String.mk (List.replicate 10002 'a')).length > 10000 := by
    show 10000 < (List.replicate 10002 'a').length
    rw [List.length_replicate]
    norm_num
  have heq : (String.mk (List.replicate 10001 'a')).data.take 10000 =
      (String.mk (List.replicate 10002 'a')).data.take 10000 := by
    show (List.replicate 10001 'a').take 10000 = (List.replicate 10002 'a').take 10000
    rw [take_replicate_le 'a' 10000 10001 (by norm_num),
      take_replicate_le 'a' 10000 10002 (by norm_num)]
  obtain ⟨w1, w2⟩ := prompt_truncation "t" ["overview"]
    (String.mk (List.replicate 10001 'a')) (String.mk (List.replicate 10002 'a')) h1
  exact ⟨w1, w2 h2 heq⟩

end WebAgent
